import Mathlib

/-!
Shallow embedding of `conda/gateways/connection/download.py`.

The module under verification has two parts:

* `download(url, target_full_path, md5sum)` — checks for a pre-existing
  destination file, issues one streaming GET through the shared session,
  writes the body to disk in 16 KiB chunks while feeding an MD5
  accumulator, emits `fetch.start` / `fetch.update` / `fetch.stop`
  progress events, validates the streamed byte count against the
  declared `Content-Length` and the digest against the expected md5sum,
  and maps transport exceptions onto conda's error taxonomy.

* `SingleThreadCondaSession` — a context manager guarding one shared
  HTTP client behind a process-wide `threading.Lock`.

The HTTP transport (requests) and `hashlib` are external collaborators:
the response is modelled as data (status, headers, the chunk sequence
`iter_content` yields together with the wire cursor `resp.raw.tell()`
reports after each chunk), and the MD5 hex digest as an arbitrary
function parameter `H` applied to the bytes fed to the accumulator.
Side effects (progress logger calls, the GET itself, file writes) are
reified as an event trace and ghost fields on the result.
-/

namespace CondaDownload

/-- One chunk yielded by `resp.iter_content(2 ** 14)`.
`data` is the chunk's content as handed to `fh.write` and
`digest_builder.update` (possibly the decompressed form of the wire
bytes); `tell` is the value `resp.raw.tell()` returns after this chunk
was read (the raw wire-byte cursor); `writeError` is `some errno` when
`fh.write(chunk)` raises `IOError` with that errno. -/
structure RawChunk where
  data : List Nat
  tell : Nat
  writeError : Option Nat
deriving Repr, DecidableEq

/-- The response object returned by `session.get(url, stream=True, ...)`.
`contentLengthHeader = some n` models a `Content-Length` header present
with decimal value `n`; `none` models an absent header. -/
structure Resp where
  statusCode : Nat
  reason : String
  elapsed : Nat
  contentLengthHeader : Option Nat
  chunks : List RawChunk
deriving Repr, DecidableEq

/-- Outcome of the `session.get` call itself: a response, or one of the
transport exceptions the surrounding `try` distinguishes. -/
inductive GetOutcome
  | success (resp : Resp)
  | connectionError
  | sslError
  | invalidSchema (msg : String)
deriving Repr, DecidableEq

/-- The errors `download` can raise, with the payloads the source
attaches to each. -/
inductive DownloadError
  | clobber (targetPath url : String)
  | condaHTTP (url : String) (statusCode : Option Nat) (reason : Option String)
      (elapsed : Option Nat)
  | condaDependency
  | invalidSchema (msg : String)
  | writeFailed (targetPath : String) (errno : Nat)
  | lengthMismatch (url targetPath : String) (contentLength downloadedBytes : Nat)
  | md5Mismatch (url targetPath expected actual : String)
deriving Repr, DecidableEq

/-- Observable side effects: the GET transport call and the three
progress-logger channels `fetch.start`, `fetch.update`, `fetch.stop`. -/
inductive Event
  | getRequest (url : String)
  | fetchStart (shortName : String) (contentLength : Nat)
  | fetchUpdate (streamedBytes : Nat)
  | fetchStop
deriving Repr, DecidableEq

/-- `requests.Response.raise_for_status` raises `HTTPError` exactly for
4xx and 5xx status codes. -/
def statusRaises (code : Nat) : Bool := decide (400 ≤ code ∧ code < 600)

/-- `os.path.basename` on a posix path. -/
def basename (p : String) : String := (p.splitOn "/").getLastD p

/-- `basename(target_full_path)[:14]`, the truncated name carried by the
`fetch.start` event. -/
def shortName (targetPath : String) : String := (basename targetPath).take 14

/-- Python truthiness of the `md5sum` argument (`None` and `""` are
falsy). -/
def md5sumGiven : Option String → Bool
  | none => false
  | some s => s ≠ ""

/-- Modelled from the spec: `maybe_raise` (from `conda.exceptions`, not
part of the sources here) is the policy gate on `BasicClobberError`
that "lets operators downgrade a precondition failure (pre-existing
destination file) into a warning instead of a hard failure, under
configuration"; the default is to fail.  `clobberWarnOnly` is that
configuration; the function returns `true` when the error is raised. -/
def maybe_raise (clobberWarnOnly : Bool) : Bool := !clobberWarnOnly

/-- State threaded through the `for chunk in resp.iter_content(...)`
loop: the last value read from `resp.raw.tell()` (`streamed_bytes`,
initialised to 0), the chunks written to `fh` so far, the chunks fed to
`digest_builder` so far, and the `fetch.update` events emitted so far. -/
structure LoopState where
  streamedBytes : Nat
  written : List (List Nat)
  hashed : List (List Nat)
  events : List Event
deriving Repr, DecidableEq

/-- The streaming loop.  For each chunk, in order: record
`resp.raw.tell()` into `streamed_bytes`, write the chunk (an `IOError`
aborts the loop with the errno), feed the chunk to the digest, and —
when a declared length is known and `0 <= streamed_bytes <=
content_length` — emit a `fetch.update` event. -/
def streamLoop (contentLength : Nat) :
    List RawChunk → LoopState → Except (Nat × LoopState) LoopState
  | [], st => .ok st
  | c :: rest, st =>
    let streamedBytes := c.tell
    match c.writeError with
    | some errno => .error (errno, { st with streamedBytes := streamedBytes })
    | none =>
      streamLoop contentLength rest
        { streamedBytes := streamedBytes
          written := st.written ++ [c.data]
          hashed := st.hashed ++ [c.data]
          -- `0 <= streamed_bytes` in the source is vacuous over Nat
          events := st.events ++
            (if contentLength ≠ 0 ∧ streamedBytes ≤ contentLength
             then [Event.fetchUpdate streamedBytes] else []) }

instance {ε α : Type} [DecidableEq ε] [DecidableEq α] : DecidableEq (Except ε α) := fun a b =>
  match a, b with
  | .ok a, .ok b => if h : a = b then .isTrue (by rw [h]) else .isFalse (by simp [h])
  | .error a, .error b => if h : a = b then .isTrue (by rw [h]) else .isFalse (by simp [h])
  | .ok _, .error _ => .isFalse (by simp)
  | .error _, .ok _ => .isFalse (by simp)

/-- Result of the body of `download`'s outer `try` (before the `finally`
clause).  `file` is the destination file's contents after the call
(`none` = no file); `written`, `hashed` and `streamedFinal` are ghost
observables mirroring the `fh.write` calls, the `digest_builder.update`
calls and the final value of `streamed_bytes`; `contentLengthObserved`
is the Python local `content_length` (`none` until the assignment from
the header runs). -/
structure TryOut where
  result : Except DownloadError Unit
  events : List Event
  file : Option (List Nat)
  written : List (List Nat)
  hashed : List (List Nat)
  streamedFinal : Nat
  contentLengthObserved : Option Nat
deriving Repr, DecidableEq

/-- The body of `download`'s outer `try`, given the outcome of the GET.
`H` is `hashlib`'s md5 hex digest over the accumulated bytes;
`preFile` is the pre-existing content of the destination file, if any
(`open(target_full_path, 'wb')` truncates it). -/
def downloadTry (H : List Nat → String) (url targetPath : String)
    (md5sum : Option String) (preFile : Option (List Nat))
    (get : GetOutcome) : TryOut :=
  match get with
  | .connectionError =>
      ⟨.error (.condaHTTP url none none none), [.getRequest url], preFile, [], [], 0, none⟩
  | .sslError =>
      ⟨.error (.condaHTTP url none none none), [.getRequest url], preFile, [], [], 0, none⟩
  | .invalidSchema msg =>
      if (msg.splitOn "SOCKS").length > 1 then
        ⟨.error .condaDependency, [.getRequest url], preFile, [], [], 0, none⟩
      else
        ⟨.error (.invalidSchema msg), [.getRequest url], preFile, [], [], 0, none⟩
  | .success resp =>
      if statusRaises resp.statusCode then
        ⟨.error (.condaHTTP url (some resp.statusCode) (some resp.reason) (some resp.elapsed)),
         [.getRequest url], preFile, [], [], 0, none⟩
      else
        let contentLength := resp.contentLengthHeader.getD 0
        let startEvents :=
          if contentLength ≠ 0 then [Event.fetchStart (shortName targetPath) contentLength]
          else []
        match streamLoop contentLength resp.chunks ⟨0, [], [], []⟩ with
        | .error (errno, st) =>
            ⟨.error (.writeFailed targetPath errno),
             [Event.getRequest url] ++ startEvents ++ st.events,
             some st.written.flatten, st.written, st.hashed, st.streamedBytes,
             some contentLength⟩
        | .ok st =>
            if contentLength ≠ 0 ∧ st.streamedBytes ≠ contentLength then
              ⟨.error (.lengthMismatch url targetPath contentLength st.streamedBytes),
               [Event.getRequest url] ++ startEvents ++ st.events,
               some st.written.flatten, st.written, st.hashed, st.streamedBytes,
               some contentLength⟩
            else
              let actual := H st.hashed.flatten
              match md5sum with
              | some s =>
                  if s ≠ "" ∧ actual ≠ s then
                    ⟨.error (.md5Mismatch url targetPath s actual),
                     [Event.getRequest url] ++ startEvents ++ st.events,
                     some st.written.flatten, st.written, st.hashed, st.streamedBytes,
                     some contentLength⟩
                  else
                    ⟨.ok (), [Event.getRequest url] ++ startEvents ++ st.events,
                     some st.written.flatten, st.written, st.hashed, st.streamedBytes,
                     some contentLength⟩
              | none =>
                  ⟨.ok (), [Event.getRequest url] ++ startEvents ++ st.events,
                   some st.written.flatten, st.written, st.hashed, st.streamedBytes,
                   some contentLength⟩

/-- The observable outcome of one `download` call. -/
structure DownloadResult where
  result : Except DownloadError Unit
  events : List Event
  file : Option (List Nat)
  written : List (List Nat)
  hashed : List (List Nat)
  streamedFinal : Nat
deriving Repr, DecidableEq

/-- `download(url, target_full_path, md5sum)`: the clobber precondition
runs first (before any network activity); then the `try` body; then the
`finally` clause emits `fetch.stop` when `content_length` is truthy. -/
def download (H : List Nat → String) (clobberWarnOnly : Bool)
    (url targetPath : String) (md5sum : Option String)
    (preFile : Option (List Nat)) (get : GetOutcome) : DownloadResult :=
  if preFile.isSome && maybe_raise clobberWarnOnly then
    ⟨.error (.clobber targetPath url), [], preFile, [], [], 0⟩
  else
    let t := downloadTry H url targetPath md5sum preFile get
    ⟨t.result,
     t.events ++
       (match t.contentLengthObserved with
        | some n => if n ≠ 0 then [Event.fetchStop] else []
        | none => []),
     t.file, t.written, t.hashed, t.streamedFinal⟩

/-- The wire cursor after the last of `chunks` was read, starting from
`d` (the value `streamed_bytes` holds when the loop begins). -/
def lastTellFrom (d : Nat) : List RawChunk → Nat
  | [] => d
  | c :: rest => lastTellFrom c.tell rest

/-- The raw wire cursor after the last chunk (the final value of
`streamed_bytes`; 0 when the body was empty). -/
def finalCursor (chunks : List RawChunk) : Nat :=
  lastTellFrom 0 chunks

/-- The `fetch.update` events a completed stream emits: one per chunk
whose wire cursor lies in `[0, contentLength]`, carrying that cursor
value, when a declared length is known.  Defined from the `tell`
fields only — chunk data plays no part. -/
def updateEvents (contentLength : Nat) (chunks : List RawChunk) : List Event :=
  (chunks.filter
      (fun c => decide (contentLength ≠ 0 ∧ c.tell ≤ contentLength))).map
    (fun c => Event.fetchUpdate c.tell)

/-- The loop state an aborted or completed stream ends in. -/
def loopOut : Except (Nat × LoopState) LoopState → LoopState
  | .ok st => st
  | .error (_, st) => st

def isUpdateEvent : Event → Bool
  | .fetchUpdate _ => true
  | _ => false

def isGetEvent : Event → Bool
  | .getRequest _ => true
  | _ => false

/-- Progress events: everything the three `fetch.*` logger channels
carry (start, update, stop) — i.e. all events except the GET itself. -/
def isProgressEvent : Event → Bool
  | .getRequest _ => false
  | _ => true

lemma updateEvents_cons (cl : Nat) (c : RawChunk) (rest : List RawChunk) :
    updateEvents cl (c :: rest) =
      (if cl ≠ 0 ∧ c.tell ≤ cl then [Event.fetchUpdate c.tell] else []) ++
        updateEvents cl rest := by
  by_cases hcond : cl ≠ 0 ∧ c.tell ≤ cl <;>
    simp [updateEvents, List.filter_cons, hcond]

lemma streamLoop_ok (cl : Nat) (chunks : List RawChunk)
    (h : ∀ c ∈ chunks, c.writeError = none) (st : LoopState) :
    streamLoop cl chunks st = .ok
      { streamedBytes := lastTellFrom st.streamedBytes chunks
        written := st.written ++ chunks.map RawChunk.data
        hashed := st.hashed ++ chunks.map RawChunk.data
        events := st.events ++ updateEvents cl chunks } := by
  induction chunks generalizing st with
  | nil => simp [streamLoop, updateEvents, lastTellFrom]
  | cons c rest ih =>
    have hc : c.writeError = none := h c (by simp)
    have hrest : ∀ x ∈ rest, x.writeError = none := fun x hx => h x (by simp [hx])
    simp only [streamLoop, hc]
    rw [ih hrest]
    simp [lastTellFrom, updateEvents_cons, List.append_assoc]

lemma streamLoop_ok_writes (cl : Nat) (chunks : List RawChunk) (st st' : LoopState)
    (h : streamLoop cl chunks st = .ok st') : ∀ c ∈ chunks, c.writeError = none := by
  induction chunks generalizing st with
  | nil => simp
  | cons c rest ih =>
    intro x hx
    cases hc : c.writeError with
    | some errno => simp [streamLoop, hc] at h
    | none =>
      simp only [streamLoop, hc] at h
      cases hx with
      | head => exact hc
      | tail _ hx' => exact ih _ h x hx'

lemma streamLoop_written_eq_hashed (cl : Nat) (chunks : List RawChunk) (st : LoopState)
    (h : st.written = st.hashed) :
    (loopOut (streamLoop cl chunks st)).written = (loopOut (streamLoop cl chunks st)).hashed := by
  induction chunks generalizing st with
  | nil => simpa [streamLoop, loopOut]
  | cons c rest ih =>
    cases hc : c.writeError with
    | some errno => simpa [streamLoop, hc, loopOut]
    | none =>
      simp only [streamLoop, hc]
      exact ih _ (by simp [h])

/-- One-shot characterization of the `try` body on a response whose
status check passes and whose chunks all write cleanly. -/
lemma downloadTry_success (H : List Nat → String) (url targetPath : String)
    (md5sum : Option String) (preFile : Option (List Nat)) (resp : Resp)
    (hstatus : statusRaises resp.statusCode = false)
    (hwrites : ∀ c ∈ resp.chunks, c.writeError = none) :
    downloadTry H url targetPath md5sum preFile (.success resp) =
      (let cl := resp.contentLengthHeader.getD 0
       let startEvents :=
         if cl ≠ 0 then [Event.fetchStart (shortName targetPath) cl] else []
       let written := resp.chunks.map RawChunk.data
       let events := [Event.getRequest url] ++ startEvents ++ updateEvents cl resp.chunks
       let actual := H written.flatten
       if cl ≠ 0 ∧ finalCursor resp.chunks ≠ cl then
         ⟨.error (.lengthMismatch url targetPath cl (finalCursor resp.chunks)), events,
          some written.flatten, written, written, finalCursor resp.chunks, some cl⟩
       else
         match md5sum with
         | some s =>
             if s ≠ "" ∧ actual ≠ s then
               ⟨.error (.md5Mismatch url targetPath s actual), events,
                some written.flatten, written, written, finalCursor resp.chunks, some cl⟩
             else
               ⟨.ok (), events, some written.flatten, written, written,
                finalCursor resp.chunks, some cl⟩
         | none =>
             ⟨.ok (), events, some written.flatten, written, written,
              finalCursor resp.chunks, some cl⟩) := by
  have hok := streamLoop_ok (resp.contentLengthHeader.getD 0) resp.chunks hwrites ⟨0, [], [], []⟩
  simp only [downloadTry, hstatus, Bool.false_eq_true, if_false, hok, finalCursor]
  simp only [List.nil_append]

lemma streamLoop_zero_events (chunks : List RawChunk) (st : LoopState) :
    (loopOut (streamLoop 0 chunks st)).events = st.events := by
  induction chunks generalizing st with
  | nil => simp [streamLoop, loopOut]
  | cons c rest ih =>
    cases hc : c.writeError with
    | some errno => simp [streamLoop, hc, loopOut]
    | none =>
      simp only [streamLoop, hc]
      simpa using ih _

lemma download_proceed (H : List Nat → String) (clobberWarnOnly : Bool)
    (url targetPath : String) (md5sum : Option String) (preFile : Option (List Nat))
    (get : GetOutcome)
    (hpre : (preFile.isSome && maybe_raise clobberWarnOnly) = false) :
    download H clobberWarnOnly url targetPath md5sum preFile get =
      (let t := downloadTry H url targetPath md5sum preFile get
       ⟨t.result,
        t.events ++
          (match t.contentLengthObserved with
           | some n => if n ≠ 0 then [Event.fetchStop] else []
           | none => []),
        t.file, t.written, t.hashed, t.streamedFinal⟩) := by
  simp only [download, hpre, Bool.false_eq_true, if_false]

/-- C1: when a non-zero `Content-Length` was declared, every chunk
writes cleanly (the stream runs to its end), and the final value of
`streamed_bytes` differs from the declared length, `download` raises
the length-mismatch `CondaError` carrying the url, the target path, the
declared length and the downloaded byte count; in particular no success
return is reachable. -/
theorem length_mismatch_raises (H : List Nat → String) (clobberWarnOnly : Bool)
    (url targetPath : String) (md5sum : Option String) (preFile : Option (List Nat))
    (resp : Resp) (n : Nat)
    (hpre : (preFile.isSome && maybe_raise clobberWarnOnly) = false)
    (hstatus : statusRaises resp.statusCode = false)
    (hwrites : ∀ c ∈ resp.chunks, c.writeError = none)
    (hcl : resp.contentLengthHeader = some n) (hn : n ≠ 0)
    (hneq : finalCursor resp.chunks ≠ n) :
    (download H clobberWarnOnly url targetPath md5sum preFile (.success resp)).result =
      .error (.lengthMismatch url targetPath n (finalCursor resp.chunks)) := by
  rw [download_proceed _ _ _ _ _ _ _ hpre,
    downloadTry_success _ _ _ _ _ _ hstatus hwrites]
  simp [hcl, hn, hneq]

/-- Witness for C1: declared length 1024, a single clean chunk ending
with the wire cursor at 900 — `download` fails with the length-mismatch
error carrying (url, path, 1024, 900). -/
theorem length_mismatch_raises_witness :
    (download (fun _ => "") false "http://x/pkg.tar" "/tmp/pkg.tar" none none
        (.success ⟨200, "OK", 1, some 1024, [⟨[7, 7], 900, none⟩]⟩)).result =
      .error (.lengthMismatch "http://x/pkg.tar" "/tmp/pkg.tar" 1024 900) :=
  length_mismatch_raises (fun _ => "") false "http://x/pkg.tar" "/tmp/pkg.tar" none none
    ⟨200, "OK", 1, some 1024, [⟨[7, 7], 900, none⟩]⟩ 1024
    (by decide) (by decide) (by decide) rfl (by decide) (by decide)

/-- C2: when an expected md5sum is supplied (and, Python-truthily,
non-empty), the stream runs to its end, the byte-count validation does
not fire (no declared length, or the count matches exactly), and the
digest computed over the streamed chunks differs from the expected one,
`download` raises `MD5MismatchError` carrying the url, the target path,
the expected digest and the actual digest. -/
theorem md5_mismatch_raises (H : List Nat → String) (clobberWarnOnly : Bool)
    (url targetPath s : String) (preFile : Option (List Nat)) (resp : Resp)
    (hpre : (preFile.isSome && maybe_raise clobberWarnOnly) = false)
    (hstatus : statusRaises resp.statusCode = false)
    (hwrites : ∀ c ∈ resp.chunks, c.writeError = none)
    (hlen : resp.contentLengthHeader.getD 0 = 0 ∨
      finalCursor resp.chunks = resp.contentLengthHeader.getD 0)
    (hs : s ≠ "")
    (hdig : H ((resp.chunks.map RawChunk.data).flatten) ≠ s) :
    (download H clobberWarnOnly url targetPath (some s) preFile (.success resp)).result =
      .error (.md5Mismatch url targetPath s (H ((resp.chunks.map RawChunk.data).flatten))) := by
  rw [download_proceed _ _ _ _ _ _ _ hpre,
    downloadTry_success _ _ _ _ _ _ hstatus hwrites]
  have hcond : ¬(resp.contentLengthHeader.getD 0 ≠ 0 ∧
      finalCursor resp.chunks ≠ resp.contentLengthHeader.getD 0) := by
    rcases hlen with h | h <;> simp [h]
  simp [hcond, hs, hdig]

/-- Witness for C2: declared length 2 with the wire cursor ending
exactly at 2 (byte count matches), expected digest "bb", computed
digest "aa" — `download` fails with the checksum-mismatch error
carrying both digests. -/
theorem md5_mismatch_raises_witness :
    ((fun _ => "aa") ([1, 2] : List Nat) ≠ "bb") ∧
    (download (fun _ => "aa") false "http://x/pkg.tar" "/tmp/pkg.tar" (some "bb") none
        (.success ⟨200, "OK", 1, some 2, [⟨[1, 2], 2, none⟩]⟩)).result =
      .error (.md5Mismatch "http://x/pkg.tar" "/tmp/pkg.tar" "bb" "aa") :=
  ⟨by decide,
   md5_mismatch_raises (fun _ => "aa") false "http://x/pkg.tar" "/tmp/pkg.tar" "bb" none
     ⟨200, "OK", 1, some 2, [⟨[1, 2], 2, none⟩]⟩
     (by decide) (by decide) (by decide) (by decide) (by decide) (by decide)⟩

lemma downloadTry_written_eq_hashed (H : List Nat → String) (url targetPath : String)
    (md5sum : Option String) (preFile : Option (List Nat)) (get : GetOutcome) :
    (downloadTry H url targetPath md5sum preFile get).written =
      (downloadTry H url targetPath md5sum preFile get).hashed := by
  cases get with
  | connectionError => rfl
  | sslError => rfl
  | invalidSchema msg =>
      simp only [downloadTry]
      split <;> rfl
  | success resp =>
      have hwh := streamLoop_written_eq_hashed (resp.contentLengthHeader.getD 0)
        resp.chunks ⟨0, [], [], []⟩ rfl
      by_cases hs : statusRaises resp.statusCode = true
      · simp [downloadTry, hs]
      · cases hloop : streamLoop (resp.contentLengthHeader.getD 0) resp.chunks ⟨0, [], [], []⟩ with
        | error e =>
            obtain ⟨errno, st⟩ := e
            rw [hloop] at hwh
            simp only [loopOut] at hwh
            simp [downloadTry, hs, hloop, hwh]
        | ok st =>
            rw [hloop] at hwh
            simp only [loopOut] at hwh
            rcases md5sum with _ | s <;>
              simp only [downloadTry, hs, Bool.false_eq_true, if_false, hloop] <;>
              split_ifs <;> simpa using hwh

lemma downloadTry_ok_file (H : List Nat → String) (url targetPath : String)
    (md5sum : Option String) (preFile : Option (List Nat)) (get : GetOutcome)
    (hok : (downloadTry H url targetPath md5sum preFile get).result = .ok ()) :
    (downloadTry H url targetPath md5sum preFile get).file =
      some ((downloadTry H url targetPath md5sum preFile get).written.flatten) := by
  cases get with
  | connectionError => simp [downloadTry] at hok
  | sslError => simp [downloadTry] at hok
  | invalidSchema msg =>
      simp only [downloadTry] at hok
      split at hok <;> simp at hok
  | success resp =>
      by_cases hs : statusRaises resp.statusCode = true
      · simp [downloadTry, hs] at hok
      · cases hloop : streamLoop (resp.contentLengthHeader.getD 0) resp.chunks ⟨0, [], [], []⟩ with
        | error e =>
            obtain ⟨errno, st⟩ := e
            simp [downloadTry, hs, hloop] at hok
        | ok st =>
            rcases md5sum with _ | s <;>
              simp only [downloadTry, hs, Bool.false_eq_true, if_false, hloop] at hok ⊢ <;>
              split_ifs at hok ⊢ <;> simp_all

/-- C3: on every successful return, the chunk sequence written to the
destination file equals — in content and order — the chunk sequence fed
to the MD5 accumulator, and the bytes on disk are exactly their
concatenation; hence any digest of the file contents coincides with
the digest the verification step computed. -/
theorem success_write_hash_agree (H : List Nat → String) (clobberWarnOnly : Bool)
    (url targetPath : String) (md5sum : Option String) (preFile : Option (List Nat))
    (get : GetOutcome)
    (hok : (download H clobberWarnOnly url targetPath md5sum preFile get).result = .ok ()) :
    (download H clobberWarnOnly url targetPath md5sum preFile get).written =
        (download H clobberWarnOnly url targetPath md5sum preFile get).hashed ∧
      (download H clobberWarnOnly url targetPath md5sum preFile get).file =
        some ((download H clobberWarnOnly url targetPath md5sum preFile get).hashed.flatten) := by
  by_cases hpre : (preFile.isSome && maybe_raise clobberWarnOnly) = true
  · simp [download, hpre] at hok
  · have hpre' : (preFile.isSome && maybe_raise clobberWarnOnly) = false := by
      simpa using hpre
    have h1 := downloadTry_written_eq_hashed H url targetPath md5sum preFile get
    have hok' : (downloadTry H url targetPath md5sum preFile get).result = .ok () := by
      rw [download_proceed _ _ _ _ _ _ _ hpre'] at hok
      exact hok
    have h2 := downloadTry_ok_file H url targetPath md5sum preFile get hok'
    rw [download_proceed _ _ _ _ _ _ _ hpre']
    refine ⟨h1, ?_⟩
    show (downloadTry H url targetPath md5sum preFile get).file =
      some ((downloadTry H url targetPath md5sum preFile get).hashed.flatten)
    rw [h2, h1]

/-- Witness for C3 at a concrete successful run: two chunks, written
and hashed identically, and the file holds their concatenation. -/
theorem success_write_hash_agree_witness :
    (download (fun _ => "aa") false "http://x/p" "/tmp/p" (some "aa") none
        (.success ⟨200, "OK", 1, some 4, [⟨[1, 2], 2, none⟩, ⟨[3, 4], 4, none⟩]⟩)).result =
      .ok () ∧
    ((download (fun _ => "aa") false "http://x/p" "/tmp/p" (some "aa") none
        (.success ⟨200, "OK", 1, some 4, [⟨[1, 2], 2, none⟩, ⟨[3, 4], 4, none⟩]⟩)).written =
        (download (fun _ => "aa") false "http://x/p" "/tmp/p" (some "aa") none
          (.success ⟨200, "OK", 1, some 4, [⟨[1, 2], 2, none⟩, ⟨[3, 4], 4, none⟩]⟩)).hashed ∧
      (download (fun _ => "aa") false "http://x/p" "/tmp/p" (some "aa") none
          (.success ⟨200, "OK", 1, some 4, [⟨[1, 2], 2, none⟩, ⟨[3, 4], 4, none⟩]⟩)).file =
        some ((download (fun _ => "aa") false "http://x/p" "/tmp/p" (some "aa") none
          (.success ⟨200, "OK", 1, some 4,
            [⟨[1, 2], 2, none⟩, ⟨[3, 4], 4, none⟩]⟩)).hashed.flatten)) :=
  ⟨rfl,
   success_write_hash_agree (fun _ => "aa") false "http://x/p" "/tmp/p" (some "aa") none
     (.success ⟨200, "OK", 1, some 4, [⟨[1, 2], 2, none⟩, ⟨[3, 4], 4, none⟩]⟩) rfl⟩

/-- C4: under the default policy (`context.path_conflict` left at its
default, here `clobberWarnOnly = false`), a pre-existing destination
file makes `download` fail with the clobber error before anything else
happens: the event trace is empty, so in particular no GET request was
issued (the transport-call counter is zero). -/
theorem clobber_before_network (H : List Nat → String) (url targetPath : String)
    (md5sum : Option String) (f : List Nat) (get : GetOutcome) :
    (download H false url targetPath md5sum (some f) get).result =
        .error (.clobber targetPath url) ∧
      (download H false url targetPath md5sum (some f) get).events = [] ∧
      ((download H false url targetPath md5sum (some f) get).events.filter
          isGetEvent).length = 0 := by
  simp [download, maybe_raise]

lemma filter_isUpdate_updateEvents (cl : Nat) (chunks : List RawChunk) :
    (updateEvents cl chunks).filter isUpdateEvent = updateEvents cl chunks := by
  refine List.filter_eq_self.mpr ?_
  intro a ha
  simp only [updateEvents, List.mem_map] at ha
  obtain ⟨c, _, rfl⟩ := ha
  rfl

lemma downloadTry_contentLength (H : List Nat → String) (url targetPath : String)
    (md5sum : Option String) (preFile : Option (List Nat)) (resp : Resp)
    (hstatus : statusRaises resp.statusCode = false) :
    (downloadTry H url targetPath md5sum preFile (.success resp)).contentLengthObserved =
      some (resp.contentLengthHeader.getD 0) := by
  cases hloop : streamLoop (resp.contentLengthHeader.getD 0) resp.chunks ⟨0, [], [], []⟩ with
  | error e =>
      obtain ⟨errno, st⟩ := e
      simp [downloadTry, hstatus, hloop]
  | ok st =>
      rcases md5sum with _ | s <;>
        simp only [downloadTry, hstatus, Bool.false_eq_true, if_false, hloop] <;>
        split_ifs <;> rfl

lemma downloadTry_success_streamedFinal (H : List Nat → String) (url targetPath : String)
    (md5sum : Option String) (preFile : Option (List Nat)) (resp : Resp)
    (hstatus : statusRaises resp.statusCode = false)
    (hwrites : ∀ c ∈ resp.chunks, c.writeError = none) :
    (downloadTry H url targetPath md5sum preFile (.success resp)).streamedFinal =
      finalCursor resp.chunks := by
  have hok := streamLoop_ok (resp.contentLengthHeader.getD 0) resp.chunks hwrites ⟨0, [], [], []⟩
  rcases md5sum with _ | s <;>
    simp only [downloadTry, hstatus, Bool.false_eq_true, if_false, hok] <;>
    split_ifs <;> rfl

lemma downloadTry_success_events (H : List Nat → String) (url targetPath : String)
    (md5sum : Option String) (preFile : Option (List Nat)) (resp : Resp)
    (hstatus : statusRaises resp.statusCode = false)
    (hwrites : ∀ c ∈ resp.chunks, c.writeError = none) :
    (downloadTry H url targetPath md5sum preFile (.success resp)).events =
      [Event.getRequest url] ++
        (if resp.contentLengthHeader.getD 0 ≠ 0 then
          [Event.fetchStart (shortName targetPath) (resp.contentLengthHeader.getD 0)]
         else []) ++
        updateEvents (resp.contentLengthHeader.getD 0) resp.chunks := by
  have hok := streamLoop_ok (resp.contentLengthHeader.getD 0) resp.chunks hwrites ⟨0, [], [], []⟩
  rcases md5sum with _ | s <;>
    simp only [downloadTry, hstatus, Bool.false_eq_true, if_false, hok, List.nil_append] <;>
    split_ifs <;> rfl

/-- C5: on a stream that runs to its end, the byte count `download`
works with is the raw wire cursor: the final `streamed_bytes` used by
the Content-Length comparison is `resp.raw.tell()` after the last chunk
(`finalCursor`), and the `fetch.update` progress events carry exactly
the per-chunk wire-cursor values (`updateEvents`, a function of the
`tell` fields alone) — never the lengths of the possibly-decompressed
chunk data. -/
theorem streamed_bytes_from_wire_cursor (H : List Nat → String) (clobberWarnOnly : Bool)
    (url targetPath : String) (md5sum : Option String) (preFile : Option (List Nat))
    (resp : Resp)
    (hpre : (preFile.isSome && maybe_raise clobberWarnOnly) = false)
    (hstatus : statusRaises resp.statusCode = false)
    (hwrites : ∀ c ∈ resp.chunks, c.writeError = none) :
    (download H clobberWarnOnly url targetPath md5sum preFile (.success resp)).streamedFinal =
        finalCursor resp.chunks ∧
      (download H clobberWarnOnly url targetPath md5sum preFile
          (.success resp)).events.filter isUpdateEvent =
        updateEvents (resp.contentLengthHeader.getD 0) resp.chunks := by
  rw [download_proceed _ _ _ _ _ _ _ hpre]
  constructor
  · exact downloadTry_success_streamedFinal H url targetPath md5sum preFile resp hstatus hwrites
  · show ((downloadTry H url targetPath md5sum preFile (.success resp)).events ++
        match (downloadTry H url targetPath md5sum preFile
            (.success resp)).contentLengthObserved with
        | some n => if n ≠ 0 then [Event.fetchStop] else []
        | none => []).filter isUpdateEvent =
      updateEvents (resp.contentLengthHeader.getD 0) resp.chunks
    rw [downloadTry_contentLength _ _ _ _ _ _ hstatus,
      downloadTry_success_events _ _ _ _ _ _ hstatus hwrites]
    by_cases hcl : resp.contentLengthHeader.getD 0 ≠ 0 <;>
      simp [hcl, List.filter_append, filter_isUpdate_updateEvents, isUpdateEvent]

/-- Witness for C5: one chunk whose decompressed data is 5 bytes long
while the wire cursor reports 3 wire bytes; the declared length is 3,
the final count is 3 (not 5), and the single update event carries 3. -/
theorem streamed_bytes_from_wire_cursor_witness :
    (download (fun _ => "") false "http://x/p.bz2" "/tmp/p" none none
        (.success ⟨200, "OK", 1, some 3, [⟨[1, 2, 3, 4, 5], 3, none⟩]⟩)).streamedFinal = 3 ∧
      ((download (fun _ => "") false "http://x/p.bz2" "/tmp/p" none none
          (.success ⟨200, "OK", 1, some 3,
            [⟨[1, 2, 3, 4, 5], 3, none⟩]⟩)).streamedFinal ≠
        ([1, 2, 3, 4, 5] : List Nat).length) ∧
      (download (fun _ => "") false "http://x/p.bz2" "/tmp/p" none none
          (.success ⟨200, "OK", 1, some 3,
            [⟨[1, 2, 3, 4, 5], 3, none⟩]⟩)).events.filter isUpdateEvent =
        [Event.fetchUpdate 3] := by
  have h := streamed_bytes_from_wire_cursor (fun _ => "") false "http://x/p.bz2" "/tmp/p"
    none none ⟨200, "OK", 1, some 3, [⟨[1, 2, 3, 4, 5], 3, none⟩]⟩
    (by decide) (by decide) (by decide)
  refine ⟨h.1.trans (by decide), ?_, h.2.trans (by decide)⟩
  rw [h.1]
  decide

/-- C6: once a non-zero declared content length has been observed (the
GET returned, the status check passed, and the `Content-Length` header
parsed to a non-zero value), the `finally` clause emits `fetch.stop` as
the last event on every exit path — normal return, write failure,
length mismatch and checksum mismatch alike. -/
theorem fetch_stop_on_every_exit (H : List Nat → String) (clobberWarnOnly : Bool)
    (url targetPath : String) (md5sum : Option String) (preFile : Option (List Nat))
    (resp : Resp)
    (hpre : (preFile.isSome && maybe_raise clobberWarnOnly) = false)
    (hstatus : statusRaises resp.statusCode = false)
    (hn : resp.contentLengthHeader.getD 0 ≠ 0) :
    (download H clobberWarnOnly url targetPath md5sum preFile
        (.success resp)).events.getLast? = some Event.fetchStop := by
  rw [download_proceed _ _ _ _ _ _ _ hpre]
  show ((downloadTry H url targetPath md5sum preFile (.success resp)).events ++
      match (downloadTry H url targetPath md5sum preFile (.success resp)).contentLengthObserved with
      | some n => if n ≠ 0 then [Event.fetchStop] else []
      | none => []).getLast? = some Event.fetchStop
  rw [downloadTry_contentLength _ _ _ _ _ _ hstatus]
  simp [hn]

/-- Witness for C6 on a raising exit path: a chunk whose write fails
with errno 13 — the call fails with the write error, yet the last event
is still `fetch.stop`. -/
theorem fetch_stop_on_every_exit_witness :
    (download (fun _ => "") false "http://x/p" "/tmp/p" none none
        (.success ⟨200, "OK", 1, some 5, [⟨[1], 1, some 13⟩]⟩)).result =
      .error (.writeFailed "/tmp/p" 13) ∧
    (download (fun _ => "") false "http://x/p" "/tmp/p" none none
        (.success ⟨200, "OK", 1, some 5, [⟨[1], 1, some 13⟩]⟩)).events.getLast? =
      some Event.fetchStop :=
  ⟨by decide,
   fetch_stop_on_every_exit (fun _ => "") false "http://x/p" "/tmp/p" none none
     ⟨200, "OK", 1, some 5, [⟨[1], 1, some 13⟩]⟩ (by decide) (by decide) (by decide)⟩

/-- Whether the GET outcome is a transport failure the outer
`except (ConnectionError, HTTPError, SSLError)` clause catches — a
4xx/5xx status becomes `HTTPError` via `raise_for_status`. -/
def transportFails : GetOutcome → Bool
  | .success resp => statusRaises resp.statusCode
  | .connectionError => true
  | .sslError => true
  | .invalidSchema _ => false

/-- `getattr(e.response, 'status_code', None)`: `HTTPError` from
`raise_for_status` carries the response; connection and TLS errors
carry none. -/
def respStatus : GetOutcome → Option Nat
  | .success resp => some resp.statusCode
  | _ => none

/-- `getattr(e.response, 'reason', None)`. -/
def respReason : GetOutcome → Option String
  | .success resp => some resp.reason
  | _ => none

/-- `getattr(e.response, 'elapsed', None)`. -/
def respElapsed : GetOutcome → Option Nat
  | .success resp => some resp.elapsed
  | _ => none

/-- C7 counterexample: a `304 Not Modified` response is non-2xx, yet
`raise_for_status` raises only for 4xx/5xx, so `download` returns
successfully — no HTTP transport error is surfaced for this non-2xx
status. -/
theorem non_2xx_not_always_surfaced :
    (304 < 200 ∨ 300 ≤ 304) ∧
      (download (fun _ => "") false "http://x/p" "/tmp/p" none none
          (.success ⟨304, "Not Modified", 0, none, []⟩)).result = .ok () :=
  ⟨by decide, rfl⟩

/-- C7 (amended): every transport-layer failure of the GET — a 4xx/5xx
HTTP status, a connection error, or a TLS error — is surfaced as the
single `CondaHTTPError` kind, preserving the original response's status
code, reason and elapsed time as metadata when a response is available
(`getattr(e.response, ..., None)`), and the trace holds exactly one GET
request: the core performs no retry.  (1xx/3xx statuses are not raised
by `raise_for_status` and fall through to normal processing.) -/
theorem transport_failure_maps_to_http_error (H : List Nat → String)
    (clobberWarnOnly : Bool) (url targetPath : String) (md5sum : Option String)
    (preFile : Option (List Nat)) (get : GetOutcome)
    (hpre : (preFile.isSome && maybe_raise clobberWarnOnly) = false)
    (hfail : transportFails get = true) :
    (download H clobberWarnOnly url targetPath md5sum preFile get).result =
        .error (.condaHTTP url (respStatus get) (respReason get) (respElapsed get)) ∧
      ((download H clobberWarnOnly url targetPath md5sum preFile get).events.filter
          isGetEvent).length = 1 := by
  rw [download_proceed _ _ _ _ _ _ _ hpre]
  cases get with
  | invalidSchema msg => simp [transportFails] at hfail
  | connectionError =>
      exact ⟨rfl, rfl⟩
  | sslError =>
      exact ⟨rfl, rfl⟩
  | success resp =>
      have hs : statusRaises resp.statusCode = true := hfail
      simp [downloadTry, hs, isGetEvent, respStatus, respReason, respElapsed]

/-- Witness for C7 (amended) at a 404 response: the call fails with
`CondaHTTPError` carrying status 404, reason and elapsed time, after a
single GET. -/
theorem transport_failure_maps_to_http_error_witness :
    (download (fun _ => "") false "http://x/p" "/tmp/p" none none
        (.success ⟨404, "Not Found", 7, none, []⟩)).result =
        .error (.condaHTTP "http://x/p" (some 404) (some "Not Found") (some 7)) ∧
      ((download (fun _ => "") false "http://x/p" "/tmp/p" none none
          (.success ⟨404, "Not Found", 7, none, []⟩)).events.filter isGetEvent).length = 1 :=
  transport_failure_maps_to_http_error (fun _ => "") false "http://x/p" "/tmp/p" none none
    (.success ⟨404, "Not Found", 7, none, []⟩) (by decide) (by decide)

lemma downloadTry_success_file (H : List Nat → String) (url targetPath : String)
    (md5sum : Option String) (preFile : Option (List Nat)) (resp : Resp)
    (hstatus : statusRaises resp.statusCode = false)
    (hwrites : ∀ c ∈ resp.chunks, c.writeError = none) :
    (downloadTry H url targetPath md5sum preFile (.success resp)).file =
      some ((resp.chunks.map RawChunk.data).flatten) := by
  have hok := streamLoop_ok (resp.contentLengthHeader.getD 0) resp.chunks hwrites ⟨0, [], [], []⟩
  rcases md5sum with _ | s <;>
    simp only [downloadTry, hstatus, Bool.false_eq_true, if_false, hok, List.nil_append] <;>
    split_ifs <;> rfl

/-- C10: when the call fails in the validation phase — length mismatch
or checksum mismatch — the fully streamed destination file is left on
disk untouched: it still holds the concatenation of every received
chunk (neither failure path deletes or truncates it). -/
theorem validation_failure_leaves_file (H : List Nat → String) (clobberWarnOnly : Bool)
    (url targetPath : String) (md5sum : Option String) (preFile : Option (List Nat))
    (resp : Resp)
    (hpre : (preFile.isSome && maybe_raise clobberWarnOnly) = false)
    (hstatus : statusRaises resp.statusCode = false)
    (herr : (∃ a b c d, (download H clobberWarnOnly url targetPath md5sum preFile
          (.success resp)).result = .error (.lengthMismatch a b c d)) ∨
        (∃ a b c d, (download H clobberWarnOnly url targetPath md5sum preFile
          (.success resp)).result = .error (.md5Mismatch a b c d))) :
    (download H clobberWarnOnly url targetPath md5sum preFile (.success resp)).file =
      some ((resp.chunks.map RawChunk.data).flatten) := by
  have hwrites : ∀ c ∈ resp.chunks, c.writeError = none := by
    cases hloop : streamLoop (resp.contentLengthHeader.getD 0) resp.chunks ⟨0, [], [], []⟩ with
    | ok st => exact streamLoop_ok_writes _ _ _ _ hloop
    | error e =>
        obtain ⟨errno, st⟩ := e
        exfalso
        rw [download_proceed _ _ _ _ _ _ _ hpre] at herr
        rcases herr with ⟨a, b, c, d, h⟩ | ⟨a, b, c, d, h⟩ <;>
          simp [downloadTry, hstatus, hloop] at h
  rw [download_proceed _ _ _ _ _ _ _ hpre]
  show (downloadTry H url targetPath md5sum preFile (.success resp)).file = _
  exact downloadTry_success_file H url targetPath md5sum preFile resp hstatus hwrites

/-- Witness for C10: declared length 5 but only 2 wire bytes arrive —
the call fails with the length-mismatch error and the destination file
still holds both streamed bytes. -/
theorem validation_failure_leaves_file_witness :
    ((∃ a b c d, (download (fun _ => "") false "http://x/p" "/tmp/p" none none
          (.success ⟨200, "OK", 1, some 5, [⟨[1, 2], 2, none⟩]⟩)).result =
        .error (.lengthMismatch a b c d)) ∨
      (∃ a b c d, (download (fun _ => "") false "http://x/p" "/tmp/p" none none
          (.success ⟨200, "OK", 1, some 5, [⟨[1, 2], 2, none⟩]⟩)).result =
        .error (.md5Mismatch a b c d))) ∧
    (download (fun _ => "") false "http://x/p" "/tmp/p" none none
        (.success ⟨200, "OK", 1, some 5, [⟨[1, 2], 2, none⟩]⟩)).file = some [1, 2] :=
  ⟨.inl ⟨"http://x/p", "/tmp/p", 5, 2, by decide⟩,
   validation_failure_leaves_file (fun _ => "") false "http://x/p" "/tmp/p" none none
     ⟨200, "OK", 1, some 5, [⟨[1, 2], 2, none⟩]⟩ (by decide) (by decide)
     (.inl ⟨"http://x/p", "/tmp/p", 5, 2, by decide⟩)⟩

/-- C9: a `Content-Length` header present with value "0" behaves
exactly like an absent header: the whole call result is identical, no
progress event of any kind (`fetch.start`, `fetch.update`,
`fetch.stop`) is emitted — even on raising paths — and the byte-count
validation never fires (no length-mismatch error is reachable). -/
theorem zero_content_length_as_absent (H : List Nat → String) (clobberWarnOnly : Bool)
    (url targetPath : String) (md5sum : Option String) (preFile : Option (List Nat))
    (sc : Nat) (rs : String) (el : Nat) (chunks : List RawChunk) :
    download H clobberWarnOnly url targetPath md5sum preFile
        (.success ⟨sc, rs, el, some 0, chunks⟩) =
      download H clobberWarnOnly url targetPath md5sum preFile
        (.success ⟨sc, rs, el, none, chunks⟩) ∧
    (download H clobberWarnOnly url targetPath md5sum preFile
        (.success ⟨sc, rs, el, some 0, chunks⟩)).events.filter isProgressEvent = [] ∧
    ∀ a b c d, (download H clobberWarnOnly url targetPath md5sum preFile
        (.success ⟨sc, rs, el, some 0, chunks⟩)).result ≠
      .error (.lengthMismatch a b c d) := by
  by_cases hpre : (preFile.isSome && maybe_raise clobberWarnOnly) = true
  · refine ⟨?_, ?_, ?_⟩ <;> simp [download, hpre]
  · have hpre' : (preFile.isSome && maybe_raise clobberWarnOnly) = false := by
      simpa using hpre
    have hev := streamLoop_zero_events chunks ⟨0, [], [], []⟩
    rw [download_proceed _ _ _ _ _ _ _ hpre', download_proceed _ _ _ _ _ _ _ hpre']
    by_cases hs : statusRaises sc = true
    · refine ⟨?_, ?_, ?_⟩ <;> simp [downloadTry, hs, isProgressEvent]
    · have hs' : statusRaises sc = false := by simpa using hs
      cases hloop : streamLoop 0 chunks ⟨0, [], [], []⟩ with
      | error e =>
          obtain ⟨errno, st⟩ := e
          rw [hloop] at hev
          simp only [loopOut] at hev
          refine ⟨?_, ?_, ?_⟩ <;>
            simp [downloadTry, hs', hloop, hev, isProgressEvent]
      | ok st =>
          rw [hloop] at hev
          simp only [loopOut] at hev
          refine ⟨?_, ?_, ?_⟩ <;>
            rcases md5sum with _ | s <;>
            simp [downloadTry, hs', hloop, hev, isProgressEvent] <;>
            split_ifs <;> simp [isProgressEvent]

end CondaDownload

namespace SessionModel

/-- Where one thread stands in
`with SingleThreadCondaSession() as session: ...` — idle (before
`__enter__`), inside the with-body holding the mutex (`raises` records
whether the body will raise), or done (`__exit__` has run; on a raising
body the exception propagates from here). -/
inductive Phase
  | idle
  | critical (raises : Bool)
  | done (raises : Bool)
deriving Repr, DecidableEq

/-- Global state of `SingleThreadCondaSession`: who holds `_mutex`
(`none` = unlocked) and each thread's phase. -/
structure SState (n : Nat) where
  lock : Option (Fin n)
  phases : Fin n → Phase

/-- Initial state: mutex free, all threads idle. -/
def initState (n : Nat) : SState n := ⟨none, fun _ => Phase.idle⟩

/-- Interleaving semantics of the context manager: `__enter__` blocks in
`_mutex.acquire()` — the transition fires only when the lock is free —
and `__exit__` runs `_mutex.release()` unconditionally, ignoring
`exc_type`/`exc_val`/`exc_tb`, after which any exception propagates. -/
inductive Step (n : Nat) : SState n → SState n → Prop
  | acquire (s : SState n) (i : Fin n) (r : Bool) :
      s.phases i = Phase.idle → s.lock = none →
      Step n s ⟨some i, Function.update s.phases i (Phase.critical r)⟩
  | release (s : SState n) (i : Fin n) (r : Bool) :
      s.phases i = Phase.critical r →
      Step n s ⟨none, Function.update s.phases i (Phase.done r)⟩

/-- States reachable from the initial state by interleaved threads. -/
inductive Reachable (n : Nat) : SState n → Prop
  | init : Reachable n (initState n)
  | step {s s' : SState n} : Reachable n s → Step n s s' → Reachable n s'

lemma reachable_lock_inv (n : Nat) (s : SState n) (h : Reachable n s) :
    ∀ i : Fin n, s.lock = some i ↔ ∃ r, s.phases i = Phase.critical r := by
  induction h with
  | init => intro i; simp [initState]
  | @step s s' hr hstep ih =>
      cases hstep with
      | acquire j r hj hlock =>
          intro i
          constructor
          · intro hi
            obtain rfl : j = i := Option.some.inj hi
            exact ⟨r, by simp⟩
          · rintro ⟨r', hcrit⟩
            by_cases hij : i = j
            · rw [hij]
            · have hcrit' : Function.update s.phases j (Phase.critical r) i =
                  Phase.critical r' := hcrit
              rw [Function.update_noteq hij] at hcrit'
              have hl := (ih i).mpr ⟨r', hcrit'⟩
              rw [hlock] at hl
              exact absurd hl (by simp)
      | release j r hj =>
          intro i
          constructor
          · intro hi
            exact absurd hi (by simp)
          · rintro ⟨r', hcrit⟩
            have hcrit' : Function.update s.phases j (Phase.done r) i =
                Phase.critical r' := hcrit
            by_cases hij : i = j
            · subst hij
              rw [Function.update_same] at hcrit'
              exact absurd hcrit' (by simp)
            · rw [Function.update_noteq hij] at hcrit'
              have h1 := (ih i).mpr ⟨r', hcrit'⟩
              have h2 := (ih j).mpr ⟨r, hj⟩
              rw [h1] at h2
              exact absurd (Option.some.inj h2) hij

/-- C8: in every reachable state of the shared-session protocol, at
most one thread is inside the with-body at any instant (mutual
exclusion over the shared HTTP client), and any thread that has exited
the body — normally or with the body raising — no longer holds the
mutex: `__exit__`'s unconditional release runs on every exit path
before an error propagates. -/
theorem session_mutual_exclusion (n : Nat) (s : SState n) (h : Reachable n s) :
    (∀ (i j : Fin n) (ri rj : Bool),
        s.phases i = Phase.critical ri → s.phases j = Phase.critical rj → i = j) ∧
      (∀ (i : Fin n) (r : Bool), s.phases i = Phase.done r → s.lock ≠ some i) := by
  have hinv := reachable_lock_inv n s h
  constructor
  · intro i j ri rj hi hj
    have h1 : s.lock = some i := (hinv i).mpr ⟨ri, hi⟩
    have h2 : s.lock = some j := (hinv j).mpr ⟨rj, hj⟩
    rw [h1] at h2
    exact Option.some.inj h2
  · intro i r hdone hlock
    obtain ⟨r', hcrit⟩ := (hinv i).mp hlock
    rw [hdone] at hcrit
    exact absurd hcrit (by simp)

/-- A concrete run of two threads: thread 0 acquires, its body raises,
`__exit__` releases; the resulting state. -/
def exState : SState 2 :=
  ⟨none, Function.update (Function.update (fun _ => Phase.idle) 0 (Phase.critical true))
    0 (Phase.done true)⟩

/-- Witness for C8: the state after thread 0 acquired and exited with a
raising body is reachable, and the theorem's conclusions hold there —
in particular the exited thread no longer holds the mutex. -/
theorem session_mutual_exclusion_witness :
    Reachable 2 exState ∧
      ((∀ (i j : Fin 2) (ri rj : Bool),
          exState.phases i = Phase.critical ri → exState.phases j = Phase.critical rj →
            i = j) ∧
        (∀ (i : Fin 2) (r : Bool), exState.phases i = Phase.done r →
          exState.lock ≠ some i)) := by
  have h1 : Step 2 (initState 2)
      ⟨some 0, Function.update (initState 2).phases 0 (Phase.critical true)⟩ :=
    Step.acquire (initState 2) 0 true rfl rfl
  have h2 : Step 2
      ⟨some 0, Function.update (initState 2).phases 0 (Phase.critical true)⟩ exState :=
    Step.release _ 0 true (by simp [initState])
  have hreach : Reachable 2 exState :=
    Reachable.step (Reachable.step Reachable.init h1) h2
  exact ⟨hreach, session_mutual_exclusion 2 exState hreach⟩

end SessionModel
